import Mathlib

/-!
Verification of the DailyHotApi aggregation pipeline against its specification.

The development shallowly embeds the shared pipeline code of the repository:
the time normalizer (src/utils/getTime.ts), the per-route deduplication,
recency filtering, enrichment batching, content extraction and the
getList error handling of the route files (src/routes/*.ts and the
chinanews route file).  External collaborators (the dayjs library, the
cheerio DOM, the fetch layer) are modelled: dayjs date arithmetic is
reproduced with explicit civil-calendar arithmetic in the fixed UTC+8
offset used by the code, the DOM extraction results appear as parameters,
and the fetch layer appears as an Except value.
-/

namespace DailyHot

/- ===================================================================
   Civil calendar arithmetic (models dayjs/Date in the fixed UTC+8
   offset "Asia/Shanghai" that src/utils/getTime.ts pins).
   =================================================================== -/

/-- Days since 1970-01-01 for a civil date whose month is in 1..12.
The day component may be out of range; it rolls over linearly, exactly like
the JS Date component arithmetic.  Standard era-based conversion. -/
def daysFromCivilMonthValid (y m d : Int) : Int :=
  let yy := if m ≤ 2 then y - 1 else y
  let era := Int.fdiv yy 400
  let yoe := yy - era * 400
  let mp := m + (if m > 2 then (-3 : Int) else 9)
  let doy := Int.fdiv (153 * mp + 2) 5 + d - 1
  let doe := yoe * 365 + Int.fdiv yoe 4 - Int.fdiv yoe 100 + doy
  era * 146097 + doe - 719468

/-- Month-normalized days since epoch: month values outside 1..12 roll over
into the year, mirroring JS Date setMonth/setDate normalization. -/
def epochDaysOf (y m d : Int) : Int :=
  let mt := y * 12 + (m - 1)
  let yn := Int.fdiv mt 12
  let mn := mt - yn * 12 + 1
  daysFromCivilMonthValid yn mn d

/-- Inverse conversion: days since epoch to civil (year, month, day). -/
def civilFromDays (z0 : Int) : Int × Int × Int :=
  let z := z0 + 719468
  let era := Int.fdiv z 146097
  let doe := z - era * 146097
  let yoe :=
    Int.fdiv (doe - Int.fdiv doe 1460 + Int.fdiv doe 36524 - Int.fdiv doe 146096) 365
  let y := yoe + era * 400
  let doy := doe - (365 * yoe + Int.fdiv yoe 4 - Int.fdiv yoe 100)
  let mp := Int.fdiv (5 * doy + 2) 153
  let d := doy - Int.fdiv (153 * mp + 2) 5 + 1
  let m := mp + (if mp < 10 then 3 else -9)
  (if m ≤ 2 then y + 1 else y, m, d)

/-- A dayjs instant viewed as civil fields in the Asia/Shanghai (UTC+8)
fixed offset, plus a millisecond component. -/
structure ShDateTime where
  year : Int
  month : Int
  day : Int
  hour : Int
  minute : Int
  second : Int
  millis : Int
deriving DecidableEq

/-- dayjs valueOf: epoch milliseconds of the civil fields at UTC+8.
Out-of-range components roll over linearly (Date semantics). -/
def shValueOf (t : ShDateTime) : Int :=
  epochDaysOf t.year t.month t.day * 86400000 +
    t.hour * 3600000 + t.minute * 60000 + t.second * 1000 + t.millis - 28800000

/-- Epoch milliseconds back to normalized civil fields at UTC+8. -/
def shFromMillis (ms : Int) : ShDateTime :=
  let sh := ms + 28800000
  let days := Int.fdiv sh 86400000
  let rem := sh - days * 86400000
  let ymd := civilFromDays days
  let hour := Int.fdiv rem 3600000
  let rem2 := rem - hour * 3600000
  let minute := Int.fdiv rem2 60000
  let rem3 := rem2 - minute * 60000
  let second := Int.fdiv rem3 1000
  { year := ymd.1, month := ymd.2.1, day := ymd.2.2,
    hour := hour, minute := minute, second := second,
    millis := rem3 - second * 1000 }

/-- Renormalize after a field update (Date normalizes immediately on set). -/
def shNorm (t : ShDateTime) : ShDateTime := shFromMillis (shValueOf t)

def shSetYear (t : ShDateTime) (y : Int) : ShDateTime := shNorm { t with year := y }

/-- dayjs set("month", k) takes a 0-based month. -/
def shSetMonth0 (t : ShDateTime) (m0 : Int) : ShDateTime := shNorm { t with month := m0 + 1 }

def shSetDate (t : ShDateTime) (d : Int) : ShDateTime := shNorm { t with day := d }

def shSetHour (t : ShDateTime) (h : Int) : ShDateTime := shNorm { t with hour := h }

def shSetMinute (t : ShDateTime) (m : Int) : ShDateTime := shNorm { t with minute := m }

def shSetSecond (t : ShDateTime) (s : Int) : ShDateTime := shNorm { t with second := s }

/-- dayjs startOf("day"). -/
def shStartOfDay (t : ShDateTime) : ShDateTime :=
  { shNorm t with hour := 0, minute := 0, second := 0, millis := 0 }

/-- dayjs subtract: in a fixed-offset zone subtracting days/hours/minutes is
plain millisecond arithmetic. -/
def shSubtractMs (t : ShDateTime) (ms : Int) : ShDateTime :=
  shFromMillis (shValueOf t - ms)

/- ===================================================================
   JS string primitives used by the sources.
   =================================================================== -/

/-- The JS whitespace class as used by trim / the regex \s (modelled on the
ASCII fragment; the exotic Unicode space code points do not occur in the
inputs the routes feed the normalizer). -/
def isJsWs (c : Char) : Bool :=
  c = ' ' || c = '\t' || c = '\n' || c = '\r' || c = '\x0b' || c = '\x0c'

def jsTrimChars (l : List Char) : List Char :=
  ((l.dropWhile isJsWs).reverse.dropWhile isJsWs).reverse

/-- String.prototype.trim. -/
def jsTrim (s : String) : String := String.mk (jsTrimChars s.data)

def isPrefixOfChars : List Char → List Char → Bool
  | [], _ => true
  | _ :: _, [] => false
  | a :: as, b :: bs => a = b && isPrefixOfChars as bs

def containsSubChars : List Char → List Char → Bool
  | [], needle => needle.isEmpty
  | c :: rest, needle => isPrefixOfChars needle (c :: rest) || containsSubChars rest needle

/-- String.prototype.includes. -/
def jsIncludes (s sub : String) : Bool :=
  if sub = "" then true else containsSubChars s.data sub.data

/-- Split on a single-character separator (String.prototype.split with a
one-character string, the only separators the sources use). -/
def splitOnChar (sep : Char) : List Char → List (List Char)
  | [] => [[]]
  | c :: rest =>
      if c = sep then [] :: splitOnChar sep rest
      else
        match splitOnChar sep rest with
        | [] => [[c]]
        | g :: gs => (c :: g) :: gs

def jsSplitChar (s : String) (sep : Char) : List String :=
  (splitOnChar sep s.data).map String.mk

def replaceFirstChars (sep repl : List Char) : List Char → List Char
  | [] => []
  | c :: rest =>
      if isPrefixOfChars sep (c :: rest) then repl ++ (c :: rest).drop sep.length
      else c :: replaceFirstChars sep repl rest

/-- String.prototype.replace with a plain-string pattern: replaces the first
occurrence only. -/
def jsReplaceFirst (s pat repl : String) : String :=
  if pat = "" then repl ++ s
  else String.mk (replaceFirstChars pat.data repl.data s.data)

/-- The part before the first occurrence of a marker (the whole list when the
marker does not occur): text.replace(/marker[\s\S]*$/, ""). -/
def takeUntilMarker (marker : List Char) : List Char → List Char
  | [] => []
  | c :: rest =>
      if isPrefixOfChars marker (c :: rest) then []
      else c :: takeUntilMarker marker rest

def digitVal (c : Char) : Int := Int.ofNat (c.toNat - '0'.toNat)

def digitsVal (l : List Char) : Int :=
  l.foldl (fun a c => a * 10 + digitVal c) 0

def isHexDigitChar (c : Char) : Bool :=
  c.isDigit || ('a' ≤ c && c ≤ 'f') || ('A' ≤ c && c ≤ 'F')

def hexVal (l : List Char) : Int :=
  l.foldl
    (fun a c =>
      a * 16 +
        (if c.isDigit then digitVal c
         else if 'a' ≤ c && c ≤ 'f' then Int.ofNat (c.toNat - 'a'.toNat) + 10
         else Int.ofNat (c.toNat - 'A'.toNat) + 10))
    0

def jsParseIntDigits (l : List Char) : Option Int :=
  let ds := l.takeWhile Char.isDigit
  if ds.isEmpty then none else some (digitsVal ds)

/-- The unsigned part of a radix-less parseInt: a 0x/0X prefix switches to
base 16 (hex autodetect), otherwise the leading run of decimal digits; NaN
(none) when no digit follows. -/
def jsParseIntCore (r : List Char) : Option Int :=
  match r with
  | '0' :: 'x' :: t =>
      let hs := t.takeWhile isHexDigitChar
      if hs.isEmpty then none else some (hexVal hs)
  | '0' :: 'X' :: t =>
      let hs := t.takeWhile isHexDigitChar
      if hs.isEmpty then none else some (hexVal hs)
  | _ => jsParseIntDigits r

/-- parseInt(s) with no radix argument, as called by the route filters and
the relative-time branches of getTime: skip whitespace, optional sign, then
hex with a 0x/0X prefix or the leading run of decimal digits. -/
def jsParseInt (s : String) : Option Int :=
  match s.data.dropWhile isJsWs with
  | '+' :: r => jsParseIntCore r
  | '-' :: r => (jsParseIntCore r).map (fun n => -n)
  | r => jsParseIntCore r

/-- parseInt(s, 10), as called by filterByDays in people-rmb.ts: base 10
only, so a 0x prefix parses as the single digit 0. -/
def jsParseInt10 (s : String) : Option Int :=
  match s.data.dropWhile isJsWs with
  | '+' :: r => jsParseIntDigits r
  | '-' :: r => (jsParseIntDigits r).map (fun n => -n)
  | r => jsParseIntDigits r

def expDigitsOk (l : List Char) : Bool :=
  match l with
  | '+' :: r => !r.isEmpty && r.all Char.isDigit
  | '-' :: r => !r.isEmpty && r.all Char.isDigit
  | r => !r.isEmpty && r.all Char.isDigit

/-- Valid ExponentPart-or-nothing tail of a decimal numeric literal. -/
def expTailOk (l : List Char) : Bool :=
  match l with
  | [] => true
  | 'e' :: r => expDigitsOk r
  | 'E' :: r => expDigitsOk r
  | _ => false

/-- Decimal forms of the StrNumericLiteral grammar:
digits [. digits] [exp]  |  . digits [exp]. -/
def decTailOk (cs : List Char) : Bool :=
  let ds := cs.takeWhile Char.isDigit
  let rest := cs.dropWhile Char.isDigit
  match rest with
  | '.' :: r2 =>
      let ds2 := r2.takeWhile Char.isDigit
      let rest2 := r2.dropWhile Char.isDigit
      !(ds.isEmpty && ds2.isEmpty) && expTailOk rest2
  | _ => !ds.isEmpty && expTailOk rest

def unsignedNumericOk (cs : List Char) : Bool :=
  cs = "Infinity".data || decTailOk cs

/-- Recognizer for the StrNumericLiteral grammar (after whitespace stripping):
signed decimal/Infinity forms, or unsigned hex/octal/binary forms. -/
def isStrNumericLiteral (cs : List Char) : Bool :=
  match cs with
  | '+' :: r => unsignedNumericOk r
  | '-' :: r => unsignedNumericOk r
  | '0' :: 'x' :: r => !r.isEmpty && r.all isHexDigitChar
  | '0' :: 'X' :: r => !r.isEmpty && r.all isHexDigitChar
  | '0' :: 'o' :: r => !r.isEmpty && r.all (fun c => '0' ≤ c && c ≤ '7')
  | '0' :: 'O' :: r => !r.isEmpty && r.all (fun c => '0' ≤ c && c ≤ '7')
  | '0' :: 'b' :: r => !r.isEmpty && r.all (fun c => c = '0' || c = '1')
  | '0' :: 'B' :: r => !r.isEmpty && r.all (fun c => c = '0' || c = '1')
  | r => unsignedNumericOk r

/-- isNaN(Number(s)): true exactly when the trimmed string is non-empty and
is not a numeric literal. -/
def jsNumberIsNaN (s : String) : Bool :=
  let core := jsTrimChars s.data
  !(core.isEmpty || isStrNumericLiteral core)

def jsNumberValCore (r : List Char) : Int :=
  match r with
  | '0' :: 'x' :: h => hexVal h
  | '0' :: 'X' :: h => hexVal h
  | _ => digitsVal (r.takeWhile Char.isDigit)

/-- Number(s) on the non-NaN path.  Exact for the empty string (0) and for
signed decimal-integer and hex numerals — the shapes the routes feed the
normalizer; fractional digits and exponents of other numerals are not
reproduced (no claim depends on them). -/
def jsNumberVal (s : String) : Int :=
  match jsTrimChars s.data with
  | [] => 0
  | '+' :: r => jsNumberValCore r
  | '-' :: r => -(jsNumberValCore r)
  | r => jsNumberValCore r

/- ===================================================================
   getTime (src/utils/getTime.ts): the time normalizer.
   The ambient clock dayjs().tz("Asia/Shanghai") is the injected
   parameter `now`.  Return value: some ms on the number paths,
   some 0 on the fall-through sentinel, and none models both the
   implicit undefined of the catch handler and the NaN valueOf of an
   invalid date built from NaN components (no claim distinguishes the
   two; both only arise off the recognized paths).
   =================================================================== -/

/-- Test and capture for the anchored regex of two digits, colon, two digits
(the "00:00" recognizer). -/
def parseHHMM (s : String) : Option (Int × Int) :=
  match s.data with
  | [a, b, ':', c, d] =>
      if a.isDigit && b.isDigit && c.isDigit && d.isDigit then
        some (digitVal a * 10 + digitVal b, digitVal c * 10 + digitVal d)
      else none
  | _ => none

/-- Anchored regex: the 昨日 marker, one or more whitespace, then HH:MM.
The captured values equal what the source recomputes by stripping the marker,
trimming and splitting on the colon. -/
def parseYesterdayHHMM (s : String) : Option (Int × Int) :=
  match s.data with
  | '昨' :: '日' :: c :: rest =>
      if isJsWs c then parseHHMM (String.mk (rest.dropWhile isJsWs)) else none
  | _ => none

/-- Greedy one-or-two digit run (regex d{1,2}; the following char is never a
digit in the anchored patterns, so greedy matching is exact). -/
def take1or2Digits (l : List Char) : Option (Int × List Char) :=
  match l with
  | a :: b :: r =>
      if a.isDigit then
        if b.isDigit then some (digitVal a * 10 + digitVal b, r)
        else some (digitVal a, b :: r)
      else none
  | [a] => if a.isDigit then some (digitVal a, []) else none
  | [] => none

/-- Anchored regex: M月D日 (month and day each one or two digits). -/
def parseMonthDay (s : String) : Option (Int × Int) :=
  match take1or2Digits s.data with
  | some (m, '月' :: r2) =>
      (match take1or2Digits r2 with
       | some (d, ['日']) => some (m, d)
       | _ => none)
  | _ => none

/-- Anchored regex: M月D日 whitespace+ HH:MM. -/
def parseMonthDayTime (s : String) : Option (Int × Int × Int × Int) :=
  match take1or2Digits s.data with
  | some (m, '月' :: r2) =>
      (match take1or2Digits r2 with
       | some (d, '日' :: c :: rest) =>
          if isJsWs c then
            (parseHHMM (String.mk (rest.dropWhile isJsWs))).map (fun hm => (m, d, hm.1, hm.2))
          else none
       | _ => none)
  | _ => none

/-- Anchored regex: YYYY年M月D日 whitespace+ HH:MM. -/
def parseFullDateTime (s : String) : Option (Int × Int × Int × Int × Int) :=
  match s.data with
  | y1 :: y2 :: y3 :: y4 :: '年' :: r =>
      if y1.isDigit && y2.isDigit && y3.isDigit && y4.isDigit then
        (match take1or2Digits r with
         | some (m, '月' :: r2) =>
            (match take1or2Digits r2 with
             | some (d, '日' :: c :: rest) =>
                if isJsWs c then
                  (parseHHMM (String.mk (rest.dropWhile isJsWs))).map
                    (fun hm => (digitsVal [y1, y2, y3, y4], m, d, hm.1, hm.2))
                else none
             | _ => none)
         | _ => none)
      else none
  | _ => none

/-- Number(x) restricted to the Option view used in the branch bodies. -/
def jsNumberOfStr (x : String) : Option Int :=
  if jsNumberIsNaN x then none else some (jsNumberVal x)

/-- Body of the M月D日 branch: the source splits the rewritten string on the
dash and maps Number over the parts, then sets month and date and takes the
start of the day. -/
def monthDayBody (s : String) (now : ShDateTime) : Option Int :=
  let md := jsSplitChar (jsReplaceFirst (jsReplaceFirst s "月" "-") "日" "") '-'
  match jsNumberOfStr (md.headD ""),
        (match md[1]? with | some x => jsNumberOfStr x | none => none) with
  | some m, some d =>
      some (shValueOf (shStartOfDay (shSetDate (shSetMonth0 now (m - 1)) d)))
  | _, _ => none

/-- Body of the M月D日 HH:MM branch: the source splits on a single space; a
missing second part throws on the split (caught by the outer try, hence
none), otherwise month/day and hour/minute are read off and set. -/
def monthDayTimeBody (s : String) (now : ShDateTime) : Option Int :=
  let parts := jsSplitChar s ' '
  match parts[1]? with
  | none => none
  | some timePart =>
      let datePart := parts.headD ""
      let md := jsSplitChar (jsReplaceFirst (jsReplaceFirst datePart "月" "-") "日" "") '-'
      let hm := jsSplitChar timePart ':'
      match jsNumberOfStr (md.headD ""),
            (match md[1]? with | some x => jsNumberOfStr x | none => none),
            jsNumberOfStr (hm.headD ""),
            (match hm[1]? with | some x => jsNumberOfStr x | none => none) with
      | some m, some d, some h, some mi =>
          some (shValueOf (shSetSecond (shSetMinute (shSetHour
            (shSetDate (shSetMonth0 now (m - 1)) d) h) mi) 0))
      | _, _, _, _ => none

/-- Body of the YYYY年M月D日 HH:MM branch. -/
def fullDateTimeBody (s : String) (now : ShDateTime) : Option Int :=
  let parts := jsSplitChar s ' '
  match parts[1]? with
  | none => none
  | some timePart =>
      let datePart := parts.headD ""
      let ymd := jsSplitChar (jsReplaceFirst (jsReplaceFirst (jsReplaceFirst datePart "年" "-")
                    "月" "-") "日" "") '-'
      let hm := jsSplitChar timePart ':'
      match jsNumberOfStr (ymd.headD ""),
            (match ymd[1]? with | some x => jsNumberOfStr x | none => none),
            (match ymd[2]? with | some x => jsNumberOfStr x | none => none),
            jsNumberOfStr (hm.headD ""),
            (match hm[1]? with | some x => jsNumberOfStr x | none => none) with
      | some y, some m, some d, some h, some mi =>
          some (shValueOf (shSetSecond (shSetMinute (shSetHour
            (shSetDate (shSetMonth0 (shSetYear now y) (m - 1)) d) h) mi) 0))
      | _, _, _, _, _ => none

/-- Body of the branch for strings containing 今天: strip the marker, trim,
split on the colon, parseInt the two parts, set hour and minute (the source
does not zero the second here). -/
def todayBody (s : String) (now : ShDateTime) : Option Int :=
  let timeStr := jsTrim (jsReplaceFirst s "今天" "")
  let parts := jsSplitChar timeStr ':'
  match jsParseInt (parts.headD ""),
        (match parts[1]? with | some x => jsParseInt x | none => none) with
  | some h, some m => some (shValueOf (shSetMinute (shSetHour now h) m))
  | _, _ => none

/-- Body of the branch for strings containing 昨天. -/
def yesterdayBody (s : String) (now : ShDateTime) : Option Int :=
  let timeStr := jsTrim (jsReplaceFirst s "昨天" "")
  let parts := jsSplitChar timeStr ':'
  match jsParseInt (parts.headD ""),
        (match parts[1]? with | some x => jsParseInt x | none => none) with
  | some h, some m =>
      some (shValueOf (shSetMinute (shSetHour (shSubtractMs now 86400000) h) m))
  | _, _ => none

/-- Body of the N小时前 branch. -/
def hoursAgoBody (s : String) (now : ShDateTime) : Option Int :=
  match jsParseInt (jsReplaceFirst s "小时前" "") with
  | some n => some (shValueOf (shSubtractMs now (n * 3600000)))
  | none => none

/-- Body of the N分钟前 branch. -/
def minutesAgoBody (s : String) (now : ShDateTime) : Option Int :=
  match jsParseInt (jsReplaceFirst s "分钟前" "") with
  | some n => some (shValueOf (shSubtractMs now (n * 60000)))
  | none => none

/- The three chained regex replaces that standardize a date string, then the
single-run whitespace collapse and trim. -/

/-- First replace: "YYYY-MM-DD-HH" shape to "YYYY-MM-DD HH" (first match). -/
def matchRewriteA (l : List Char) : Option (List Char × List Char) :=
  match l with
  | y1 :: y2 :: y3 :: y4 :: '-' :: m1 :: m2 :: '-' :: d1 :: d2 :: '-' :: h1 :: h2 :: rest =>
      if [y1, y2, y3, y4, m1, m2, d1, d2, h1, h2].all Char.isDigit then
        some ([y1, y2, y3, y4, '-', m1, m2, '-', d1, d2, ' ', h1, h2], rest)
      else none
  | _ => none

def replaceFirstA : List Char → List Char
  | [] => []
  | c :: cs =>
      match matchRewriteA (c :: cs) with
      | some (rep, rest) => rep ++ rest
      | none => c :: replaceFirstA cs

def opt2Digits (l : List Char) : List Char × List Char :=
  match l with
  | a :: b :: r => if a.isDigit && b.isDigit then ([a, b], r) else ([], l)
  | _ => ([], l)

def optColon (l : List Char) : List Char :=
  match l with
  | ':' :: r => r
  | _ => l

/-- Second replace: date, T-or-space separator, hour, then optional colon,
optional minutes, optional colon, optional seconds; substituted into the
"$1-$2-$3 $4:$5:$6" template where an unmatched group contributes the empty
string (so the literal colons of the template always remain). -/
def matchRewriteB (l : List Char) : Option (List Char × List Char) :=
  match l with
  | y1 :: y2 :: y3 :: y4 :: '-' :: m1 :: m2 :: '-' :: d1 :: d2 :: sep :: h1 :: h2 :: rest =>
      if [y1, y2, y3, y4, m1, m2, d1, d2, h1, h2].all Char.isDigit &&
          (sep = 'T' || isJsWs sep) then
        let r1 := optColon rest
        let g5r := opt2Digits r1
        let r2 := optColon g5r.2
        let g6r := opt2Digits r2
        some ([y1, y2, y3, y4, '-', m1, m2, '-', d1, d2, ' ', h1, h2, ':'] ++
                g5r.1 ++ [':'] ++ g6r.1, g6r.2)
      else none
  | _ => none

def replaceFirstB : List Char → List Char
  | [] => []
  | c :: cs =>
      match matchRewriteB (c :: cs) with
      | some (rep, rest) => rep ++ rest
      | none => c :: replaceFirstB cs

def isDashOrSlash (c : Char) : Bool := c = '-' || c = '/'

/-- Third replace: normalize the date separators to dashes (first match). -/
def matchRewriteC (l : List Char) : Option (List Char × List Char) :=
  match l with
  | y1 :: y2 :: y3 :: y4 :: s1 :: m1 :: m2 :: s2 :: d1 :: d2 :: rest =>
      if [y1, y2, y3, y4, m1, m2, d1, d2].all Char.isDigit &&
          isDashOrSlash s1 && isDashOrSlash s2 then
        some ([y1, y2, y3, y4, '-', m1, m2, '-', d1, d2], rest)
      else none
  | _ => none

def replaceFirstC : List Char → List Char
  | [] => []
  | c :: cs =>
      match matchRewriteC (c :: cs) with
      | some (rep, rest) => rep ++ rest
      | none => c :: replaceFirstC cs

/-- The replace of the first whitespace run by a single space. -/
def collapseFirstWsRun : List Char → List Char
  | [] => []
  | c :: cs =>
      if isJsWs c then ' ' :: cs.dropWhile isJsWs
      else c :: collapseFirstWsRun cs

/-- The standardized input of getTime: the three chained regex rewrites, the
single whitespace-run collapse, and the trim. -/
def standardizedInput (s : String) : String :=
  jsTrim (String.mk (collapseFirstWsRun (replaceFirstC (replaceFirstB (replaceFirstA s.data)))))

/-- Anchored regex of exactly two digits. -/
def reTwoDigits (s : String) : Bool :=
  match s.data with
  | [a, b] => a.isDigit && b.isDigit
  | _ => false

/-- toShanghaiISO: datePart, a time part defaulted and padded, and the fixed
+08:00 suffix. -/
def toShanghaiISO (input : String) : String :=
  let parts := jsSplitChar input ' '
  let datePart := parts.headD ""
  let tp0 := match parts[1]? with | some x => x | none => ""
  let tp1 := if tp0 = "" then "00:00:00" else tp0
  let tp2 :=
    if (parseHHMM tp1).isSome then tp1 ++ ":00"
    else if reTwoDigits tp1 then tp1 ++ ":00:00"
    else tp1
  datePart ++ "T" ++ tp2 ++ "+08:00"

def isLeapYear (y : Int) : Bool :=
  (Int.emod y 4 = 0 && Int.emod y 100 ≠ 0) || Int.emod y 400 = 0

def daysInMonth (y m : Int) : Int :=
  if m = 2 then (if isLeapYear y then 29 else 28)
  else if m = 4 || m = 6 || m = 9 || m = 11 then 30
  else 31

def validCivil (y mo d h mi s : Int) : Bool :=
  1 ≤ mo && mo ≤ 12 && 1 ≤ d && d ≤ daysInMonth y mo &&
  0 ≤ h && h ≤ 23 && 0 ≤ mi && mi ≤ 59 && 0 ≤ s && s ≤ 59

def epochMsOf (y mo d h mi s : Int) : Int :=
  daysFromCivilMonthValid y mo d * 86400000 + h * 3600000 + mi * 60000 + s * 1000 - 28800000

/-- dayjs(iso) on the strings toShanghaiISO produces: these always end in
"+08:00", never match the lenient dayjs parse regex (it is anchored after the
seconds), and therefore go through the Date ISO parser, which accepts exactly
the full numeric ISO shape with in-range components. -/
def parseISO8 (iso : String) : Option Int :=
  match iso.data with
  | [y1, y2, y3, y4, '-', m1, m2, '-', d1, d2, 'T', h1, h2, ':', i1, i2, ':', s1, s2,
     '+', '0', '8', ':', '0', '0'] =>
      if [y1, y2, y3, y4, m1, m2, d1, d2, h1, h2, i1, i2, s1, s2].all Char.isDigit then
        let y := digitsVal [y1, y2, y3, y4]
        let mo := digitsVal [m1, m2]
        let d := digitsVal [d1, d2]
        let h := digitsVal [h1, h2]
        let mi := digitsVal [i1, i2]
        let s := digitsVal [s1, s2]
        if validCivil y mo d h mi s then some (epochMsOf y mo d h mi s) else none
      else none
  | _ => none

def parseYMDHead (cs : List Char) : Option (Int × Int × Int × List Char) :=
  match cs with
  | y1 :: y2 :: y3 :: y4 :: '-' :: m1 :: m2 :: '-' :: d1 :: d2 :: rest =>
      if [y1, y2, y3, y4, m1, m2, d1, d2].all Char.isDigit then
        some (digitsVal [y1, y2, y3, y4], digitsVal [m1, m2], digitsVal [d1, d2], rest)
      else none
  | _ => none

/-- The strict customParseFormat fallback over the four patterns
"YYYY-MM-DD HH:mm:ss", "YYYY-MM-DD HH:mm", "YYYY-MM-DD HH" and
"YYYY-MM-DD": an input is valid for a pattern when it matches the shape
exactly and the components survive the strict round-trip (in-range values);
the converted result re-anchors the components at +08:00, i.e. their epoch.
The four shapes are disjoint, so trying them in source order equals matching
on the tail. -/
def strictFormatsParse (std : String) : Option Int :=
  match parseYMDHead std.data with
  | none => none
  | some (y, mo, d, rest) =>
      match rest with
      | [] => if validCivil y mo d 0 0 0 then some (epochMsOf y mo d 0 0 0) else none
      | ' ' :: tr =>
          (match tr with
           | [h1, h2, ':', i1, i2, ':', s1, s2] =>
              if [h1, h2, i1, i2, s1, s2].all Char.isDigit then
                let h := digitsVal [h1, h2]
                let mi := digitsVal [i1, i2]
                let s := digitsVal [s1, s2]
                if validCivil y mo d h mi s then some (epochMsOf y mo d h mi s) else none
              else none
           | [h1, h2, ':', i1, i2] =>
              if [h1, h2, i1, i2].all Char.isDigit then
                let h := digitsVal [h1, h2]
                let mi := digitsVal [i1, i2]
                if validCivil y mo d h mi 0 then some (epochMsOf y mo d h mi 0) else none
              else none
           | [h1, h2] =>
              if h1.isDigit && h2.isDigit then
                let h := digitsVal [h1, h2]
                if validCivil y mo d h 0 0 then some (epochMsOf y mo d h 0 0) else none
              else none
           | _ => none)
      | _ => none

/-- The generic tail of the string path: the Shanghai-ISO parse, then the
strict format-pattern fallback. -/
def genericParse (std : String) : Option Int :=
  match parseISO8 (toShanghaiISO std) with
  | some v => some v
  | none => strictFormatsParse std

/-- The string | number argument of getTime. -/
inductive TimeInput where
  | str (s : String)
  | num (n : Int)

/-- The millisecond-vs-second threshold (2000-01-01T00:00:00Z in ms). -/
def msThreshold : Int := 946684800000

/-- The numeric tail of getTime. -/
def numericResult (n : Int) : Int := if n > msThreshold then n else n * 1000

/-- The disjunction of the ordered string recognizers of getTime (the five
anchored regexes and the four substring tests). -/
def matchesAnyRecognizer (s : String) : Bool :=
  (parseHHMM s).isSome || (parseYesterdayHHMM s).isSome ||
  (parseMonthDay s).isSome || (parseMonthDayTime s).isSome ||
  (parseFullDateTime s).isSome ||
  jsIncludes s "今天" || jsIncludes s "昨天" ||
  jsIncludes s "小时前" || jsIncludes s "分钟前"

/-- getTime of src/utils/getTime.ts.  Strings that Number does not map to NaN
take the numeric threshold path; otherwise the ordered recognizers run, then
the standardization and generic parses, and finally the zero sentinel. -/
def getTime (timeInput : TimeInput) (now : ShDateTime) : Option Int :=
  match timeInput with
  | .num n => some (numericResult n)
  | .str s =>
      if jsNumberIsNaN s then
        if (parseHHMM s).isSome then
          (parseHHMM s).map (fun hm =>
            shValueOf (shSetSecond (shSetMinute (shSetHour now hm.1) hm.2) 0))
        else if (parseYesterdayHHMM s).isSome then
          (parseYesterdayHHMM s).map (fun hm =>
            shValueOf (shSetSecond (shSetMinute (shSetHour (shSubtractMs now 86400000) hm.1) hm.2) 0))
        else if (parseMonthDay s).isSome then monthDayBody s now
        else if (parseMonthDayTime s).isSome then monthDayTimeBody s now
        else if (parseFullDateTime s).isSome then fullDateTimeBody s now
        else if jsIncludes s "今天" then todayBody s now
        else if jsIncludes s "昨天" then yesterdayBody s now
        else if jsIncludes s "小时前" then hoursAgoBody s now
        else if jsIncludes s "分钟前" then minutesAgoBody s now
        else
          match genericParse (standardizedInput s) with
          | some v => some v
          | none => some 0
      else some (numericResult (jsNumberVal s))

/- ===================================================================
   Deduplication (xinhua.ts and mfa-wsrc.ts):
   Array.from(new Map(items.map(item => [item.url, item])).values())
     .slice(0, N)
   A JS Map keeps keys in first-insertion order and set() overwrites the
   value in place, so the construction is an in-place-upserting fold.
   =================================================================== -/

/-- The list-stage news item shape of xinhua.ts. -/
structure ListNewsItem where
  id : String
  title : String
  url : String
  time : Option String
  source : Option String
deriving DecidableEq

/-- Map.set for the url-keyed map: overwrite in place when the key exists,
append otherwise. -/
def upsertByUrl (m : List ListNewsItem) (v : ListNewsItem) : List ListNewsItem :=
  if m.any (fun p => decide (p.url = v.url)) then
    m.map (fun p => if p.url = v.url then v else p)
  else m ++ [v]

/-- Array.from(new Map(items.map(item => [item.url, item])).values()). -/
def dedupeByUrl (items : List ListNewsItem) : List ListNewsItem :=
  items.foldl upsertByUrl []

/-- xinhua.ts uniqueNews: dedupe then slice(0, 50). -/
def xinhuaUniqueNews (items : List ListNewsItem) : List ListNewsItem :=
  (dedupeByUrl items).take 50

/-- The list-stage event shape of mfa-wsrc.ts. -/
structure MfaEvent where
  id : String
  title : String
  url : String
  eventDate : Option String
deriving DecidableEq

def upsertEventByUrl (m : List MfaEvent) (v : MfaEvent) : List MfaEvent :=
  if m.any (fun p => decide (p.url = v.url)) then
    m.map (fun p => if p.url = v.url then v else p)
  else m ++ [v]

/-- mfa-wsrc.ts uniqueEvents: dedupe then slice(0, 30). -/
def mfaUniqueEvents (events : List MfaEvent) : List MfaEvent :=
  (events.foldl upsertEventByUrl []).take 30

/- ===================================================================
   Recency filters.
   =================================================================== -/

/-- The ambient Date values the filters read: now.getTime() and the epoch of
new Date(now.getFullYear(), now.getMonth(), now.getDate()) (local midnight of
the current day in the process timezone). -/
structure JsClock where
  nowMs : Int
  todayStartMs : Int

/-- The switch(days) of the filters of chinanews, eastmoney, wallstreetcn,
36kr-keji, comnews, unn and mfa-wsrc: the three literal day counts, a
radix-less parseInt(days) fallback for other numeric tokens, and the start of
the current day otherwise. -/
def routeTargetDate (days : String) (clock : JsClock) : Int :=
  if days = "today" then clock.todayStartMs
  else if days = "3" then clock.nowMs - 3 * 86400000
  else if days = "7" then clock.nowMs - 7 * 86400000
  else if days = "30" then clock.nowMs - 30 * 86400000
  else
    match jsParseInt days with
    | some n => if n > 0 then clock.nowMs - n * 86400000 else clock.todayStartMs
    | none => clock.todayStartMs

/-- The same switch as it appears (twice) in filterByDays of people-rmb.ts,
whose fallback calls parseInt(days, 10). -/
def peopleTargetDate (days : String) (clock : JsClock) : Int :=
  if days = "today" then clock.todayStartMs
  else if days = "3" then clock.nowMs - 3 * 86400000
  else if days = "7" then clock.nowMs - 7 * 86400000
  else if days = "30" then clock.nowMs - 30 * 86400000
  else
    match jsParseInt10 days with
    | some n => if n > 0 then clock.nowMs - n * 86400000 else clock.todayStartMs
    | none => clock.todayStartMs

/-- Whether the days token is recognized as a positive integer day count by
the switch-style filters (their recognizer is the radix-less parseInt, which
autodetects hex). -/
def recognizedDayCount (days : String) : Bool :=
  match jsParseInt days with
  | some n => n > 0
  | none => false

/-- Whether the days token is recognized as a positive integer day count by
filterByDays in people-rmb.ts (its recognizer is parseInt(days, 10)). -/
def recognizedDayCount10 (days : String) : Bool :=
  match jsParseInt10 days with
  | some n => n > 0
  | none => false

/-- The per-item predicate of those filters: a falsy timestamp (undefined or
zero) passes unconditionally, otherwise the item passes iff its instant is at
or after the resolved target instant. -/
def routeKeepItem (timestamp : Option Int) (days : String) (clock : JsClock) : Bool :=
  match timestamp with
  | none => true
  | some ts =>
      if ts = 0 then true
      else decide (routeTargetDate days clock ≤ ts)

/-- Zero-padded two-digit rendering (String(x).padStart(2, "0")). -/
def pad2 (n : Int) : String :=
  if n < 10 then "0" ++ toString n else toString n

/-- The YYYY-MM-DD string of today that isToday in xinhua.ts compares with. -/
def jsTodayStr (year month0 day : Int) : String :=
  toString year ++ "-" ++ pad2 (month0 + 1) ++ "-" ++ pad2 day

/-- The compact YYYYMMDD string of today used for the URL containment test. -/
def jsTodayCompact (year month0 day : Int) : String :=
  toString year ++ pad2 (month0 + 1) ++ pad2 day

/-- isToday of xinhua.ts: URL containment of the compact date, then the empty
guard, then containment in the date string, then the dash and slash date
formats. The filter of that route keeps an item iff this returns true for
its time string (or the empty string when it has none) and its URL. -/
def xinhuaIsToday (dateStr : String) (url : Option String)
    (todayStr todayCompact : String) : Bool :=
  if (match url with | some u => jsIncludes u todayCompact | none => false) then true
  else if dateStr = "" then false
  else if jsIncludes dateStr todayCompact then true
  else if jsIncludes dateStr "-" then
    decide ((jsSplitChar dateStr ' ').headD "" = todayStr)
  else if jsIncludes dateStr "/" then
    (match (jsSplitChar ((jsSplitChar dateStr ' ').headD "") '/') with
     | y :: m :: d :: _ =>
        decide (y ++ "-" ++ (if m.length < 2 then "0" ++ m else m) ++ "-" ++
                  (if d.length < 2 then "0" ++ d else d) = todayStr)
     | _ => false)
  else false

/- ===================================================================
   Detail-enrichment schedules.  A schedule is the list of batches whose
   members run concurrently; batches run strictly one after another, so
   the peak number of in-flight detail fetches is the largest batch.
   =================================================================== -/

/-- The batching loop of chinanews, eastmoney, wallstreetcn, 36kr-keji and
comnews: for (let i = 0; i < n; i += batchSize) slice(i, i + batchSize),
with batchSize = 5, each batch awaited via one Promise.all. -/
def jsSliceBatches : List α → List (List α)
  | [] => []
  | [a] => [[a]]
  | [a, b] => [[a, b]]
  | [a, b, c] => [[a, b, c]]
  | [a, b, c, d] => [[a, b, c, d]]
  | a :: b :: c :: d :: e :: rest => [a, b, c, d, e] :: jsSliceBatches rest

/-- The enrichment schedule of xinhua.ts (and likewise mfa-wsrc.ts and
people-rmb.ts): one Promise.all over the whole deduplicated candidate list,
i.e. a single batch. -/
def xinhuaEnrichSchedule (uniqueNews : List α) : List (List α) := [uniqueNews]

/-- The peak number of concurrently in-flight enrichment calls of a
schedule. -/
def peakInFlight (sched : List (List α)) : Nat :=
  sched.foldr (fun b acc => max b.length acc) 0

/- ===================================================================
   Content extraction.
   =================================================================== -/

/-- The global whitespace collapse text.replace(/\s+/g, " "), as a single
pass with a previous-was-whitespace flag. -/
def collapseWsGo (prevWs : Bool) : List Char → List Char
  | [] => []
  | c :: cs =>
      if isJsWs c then
        (if prevWs then collapseWsGo true cs else ' ' :: collapseWsGo true cs)
      else c :: collapseWsGo false cs

def collapseWs (s : String) : String := String.mk (collapseWsGo false s.data)

/-- The paragraph filter of extractContent in the chinanews route: keep
paragraph texts longer than ten characters that carry neither editor
marker. -/
def chinanewsGoodPara (t : String) : Bool :=
  t.length > 10 && !jsIncludes t "责任编辑" && !jsIncludes t "【编辑"

/-- JS String.prototype.substring(0, n) (on code points; the texts involved
stay in the basic plane, where this coincides with UTF-16 units). -/
def jsSubstring0 (s : String) (n : Nat) : String := String.mk (s.data.take n)

/-- The final length clip of extractContent in the chinanews route. -/
def chinanewsClip (content : String) : String :=
  if content.length > 1000 then jsSubstring0 content 1000 ++ "..." else content

/-- extractContent of the chinanews route.  The cheerio DOM is the external
collaborator: paraTexts are the trimmed texts of the p elements that survive
the node removals, fullText is the whole-document text used as fallback.
An empty html argument short-circuits to the empty string; otherwise the
paragraph texts are concatenated (each with a trailing space), the whole-text
fallback applies when that is empty, whitespace is collapsed, the length is
clipped, and the no-content sentinel replaces an empty result. -/
def chinanewsAssembled (paraTexts : List String) (fullText : String) : String :=
  let content0 := String.join ((paraTexts.filter chinanewsGoodPara).map (· ++ " "))
  let content1 := if content0 = "" then jsTrim fullText else content0
  chinanewsClip (jsTrim (collapseWs content1))

def chinanewsExtractContent (htmlContent : String)
    (paraTexts : List String) (fullText : String) : String :=
  if htmlContent = "" then ""
  else
    if chinanewsAssembled paraTexts fullText = "" then "暂无内容"
    else chinanewsAssembled paraTexts fullText

/-- One disclaimers truncation of extractContent in the eastmoney route:
text.replace(/marker[\s\S]*$/, "") keeps the part before the first
occurrence of the marker. -/
def dropFromMarker (s marker : String) : String :=
  String.mk (takeUntilMarker marker.data s.data)

/-- extractContent of the eastmoney route: empty-input short-circuit, trim
and whitespace collapse of the extracted text, the ordered disclaimer
truncations, and the no-content sentinel for an empty result (the function
never clips to a maximum length). -/
def eastmoneyCleanedText (extractedText : String) : String :=
  let t0 := collapseWs (jsTrim extractedText)
  let t1 := dropFromMarker t0 "郑重声明："
  let t2 := dropFromMarker t1 "东方财富发布此内容旨在传播更多信息"
  let t3 := dropFromMarker t2 "风险提示及免责条款"
  let t4 := dropFromMarker t3 "投资建议"
  let t5 := dropFromMarker t4 "风险自担"
  let t6 := dropFromMarker t5 "EM_StockImg_Start"
  dropFromMarker t6 "EM_StockImg_End"

def eastmoneyExtractContent (htmlContent : String) (extractedText : String) : String :=
  if htmlContent = "" then ""
  else
    if eastmoneyCleanedText extractedText = "" then "暂无内容"
    else eastmoneyCleanedText extractedText

/-- The excerpt expression of getNewsContent in xinhua.ts for a selector text
that passed the fifty-character threshold:
text.replace(/\s+/g, " ").substring(0, 500) + (text.length > 10000 ? "..." : "").
The truncation threshold is 500 but the ellipsis condition tests the
pre-collapse length against 10000. -/
def xinhuaExcerpt (text : String) : String :=
  jsSubstring0 (collapseWs text) 500 ++ (if text.length > 10000 then "..." else "")

/- ===================================================================
   getList error handling.  The fetch collaborator appears as an Except
   value: ok carries the response, error the thrown exception.  The
   successful-path body (parsing, enrichment, filtering — all of whose
   per-item failures are handled locally by their own try/catch blocks)
   appears as a total function parameter.
   =================================================================== -/

/-- The response of the get() collaborator. -/
structure FetchOk (β : Type) where
  data : β
  fromCache : Bool

/-- The envelope every getList resolves with. -/
structure Envelope (α : Type) where
  updateTime : String
  fromCache : Bool
  data : List α
deriving DecidableEq

/-- getList of the chinanews route: the whole body sits in a try block whose
catch resolves with an empty, well-formed envelope with fromCache false
(nowStr is the formatted wall-clock string both paths compute). -/
def chinanewsGetList (fetchList : Except Unit (FetchOk β))
    (body : FetchOk β → Envelope α) (nowStr : String) : Envelope α :=
  match fetchList with
  | .ok r => body r
  | .error _ => { updateTime := nowStr, fromCache := false, data := [] }

/-- getList of the eastmoney route: same try/catch shape as chinanews. -/
def eastmoneyGetList (fetchList : Except Unit (FetchOk β))
    (body : FetchOk β → Envelope α) (nowStr : String) : Envelope α :=
  match fetchList with
  | .ok r => body r
  | .error _ => { updateTime := nowStr, fromCache := false, data := [] }

/-- getList of the unn route: same try/catch shape. -/
def unnGetList (fetchList : Except Unit (FetchOk β))
    (body : FetchOk β → Envelope α) (nowStr : String) : Envelope α :=
  match fetchList with
  | .ok r => body r
  | .error _ => { updateTime := nowStr, fromCache := false, data := [] }

/-- getList of xinhua.ts: the list fetch is awaited outside any try block, so
a rejected fetch rejects getList itself. -/
def xinhuaGetList (fetchList : Except Unit (FetchOk β))
    (body : FetchOk β → Envelope α) : Except Unit (Envelope α) :=
  match fetchList with
  | .ok r => .ok (body r)
  | .error e => .error e

/-- getList of mfa-wsrc.ts: the list fetch is likewise unguarded. -/
def mfaGetList (fetchList : Except Unit (FetchOk β))
    (body : FetchOk β → Envelope α) : Except Unit (Envelope α) :=
  match fetchList with
  | .ok r => .ok (body r)
  | .error e => .error e

/-- getList of people-rmb.ts: the list fetch is likewise unguarded. -/
def peopleGetList (fetchList : Except Unit (FetchOk β))
    (body : FetchOk β → Envelope α) : Except Unit (Envelope α) :=
  match fetchList with
  | .ok r => .ok (body r)
  | .error e => .error e

/- ===================================================================
   Concrete fixtures for witnesses and counterexamples.
   =================================================================== -/

/-- A concrete reference clock: 2025-01-15T12:30:45.500 at UTC+8. -/
def clockA : ShDateTime :=
  { year := 2025, month := 1, day := 15, hour := 12, minute := 30, second := 45, millis := 500 }

/-- A concrete filter clock (now and local midnight instants). -/
def clockJ : JsClock := { nowMs := 1736915445500, todayStartMs := 1736870400000 }

def mkListItem (u : String) : ListNewsItem :=
  { id := u, title := u, url := u, time := none, source := none }

/-- Six list-stage candidates with six distinct urls. -/
def sixCandidates : List ListNewsItem :=
  [mkListItem "u1", mkListItem "u2", mkListItem "u3",
   mkListItem "u4", mkListItem "u5", mkListItem "u6"]

/-- A concrete success-path body for the getList models. -/
def constEnvelopeBody : FetchOk Unit → Envelope Unit :=
  fun r => { updateTime := "2025-01-15 12:30:45", fromCache := r.fromCache, data := [] }

/-- A 501-character text with no whitespace. -/
def aChars501 : String := String.mk (List.replicate 501 'a')

/- ===================================================================
   Helper lemmas.
   =================================================================== -/

theorem length_mk (l : List Char) : (String.mk l).length = l.length := rfl

theorem length_jsSubstring0 (s : String) (n : Nat) :
    (jsSubstring0 s n).length = min n s.length := by
  simp [jsSubstring0, length_mk, List.length_take]

theorem dedupeByUrl_append (xs : List ListNewsItem) (x : ListNewsItem) :
    dedupeByUrl (xs ++ [x]) = upsertByUrl (dedupeByUrl xs) x := by
  simp [dedupeByUrl, List.foldl_append]

theorem filter_overwrite_same (D : List ListNewsItem) (x : ListNewsItem) (u : String)
    (hu : x.url = u) :
    (D.map (fun p => if p.url = x.url then x else p)).filter (fun i => decide (i.url = u)) =
      (D.filter (fun i => decide (i.url = u))).map (fun _ => x) := by
  induction D with
  | nil => rfl
  | cons a as ih =>
      simp only [List.map_cons]
      by_cases ha : a.url = x.url
      · rw [if_pos ha]
        rw [List.filter_cons_of_pos (by simp [hu]),
            List.filter_cons_of_pos (by simp [ha.trans hu])]
        simp only [List.map_cons]
        rw [ih]
      · rw [if_neg ha]
        by_cases hau : a.url = u
        · exact absurd (hau.trans hu.symm) ha
        · rw [List.filter_cons_of_neg (by simp [hau]),
              List.filter_cons_of_neg (by simp [hau])]
          exact ih

theorem filter_overwrite_other (D : List ListNewsItem) (x : ListNewsItem) (u : String)
    (hu : ¬x.url = u) :
    (D.map (fun p => if p.url = x.url then x else p)).filter (fun i => decide (i.url = u)) =
      D.filter (fun i => decide (i.url = u)) := by
  induction D with
  | nil => rfl
  | cons a as ih =>
      simp only [List.map_cons]
      by_cases ha : a.url = x.url
      · rw [if_pos ha]
        rw [List.filter_cons_of_neg (by simp [hu]),
            List.filter_cons_of_neg (by simp [show ¬a.url = u from fun h => hu (ha.symm.trans h)])]
        exact ih
      · rw [if_neg ha]
        by_cases hau : a.url = u
        · rw [List.filter_cons_of_pos (by simp [hau]),
              List.filter_cons_of_pos (by simp [hau])]
          rw [ih]
        · rw [List.filter_cons_of_neg (by simp [hau]),
              List.filter_cons_of_neg (by simp [hau])]
          exact ih

theorem dedupe_filter_getLast (items : List ListNewsItem) (u : String) :
    (dedupeByUrl items).filter (fun i => decide (i.url = u)) =
      ((items.filter (fun i => decide (i.url = u))).getLast?).toList := by
  induction items using List.reverseRecOn with
  | nil => rfl
  | append_singleton xs x ih =>
      rw [dedupeByUrl_append, List.filter_append]
      by_cases hx : x.url = u
      · have hpx : (fun i : ListNewsItem => decide (i.url = u)) x = true := by simp [hx]
        rw [show (List.filter (fun i => decide (i.url = u)) [x]) = [x] by simp [hx]]
        rw [List.getLast?_concat]
        unfold upsertByUrl
        by_cases hany : (dedupeByUrl xs).any (fun p => decide (p.url = x.url)) = true
        · rw [if_pos hany, filter_overwrite_same _ _ _ hx]
          rw [ih]
          rcases hgl : (xs.filter (fun i => decide (i.url = u))).getLast? with _ | v
          · exfalso
            rw [List.any_eq_true] at hany
            obtain ⟨q, hq, hqu⟩ := hany
            have hqu2 : q.url = u := by
              have := of_decide_eq_true hqu
              exact this.trans hx
            have hqm : q ∈ (dedupeByUrl xs).filter (fun i => decide (i.url = u)) := by
              rw [List.mem_filter]
              exact ⟨hq, by simp [hqu2]⟩
            rw [ih, hgl] at hqm
            simp at hqm
          · rw [hgl]
            rfl
        · rw [if_neg hany]
          rw [List.filter_append]
          have hD : (dedupeByUrl xs).filter (fun i => decide (i.url = u)) = [] := by
            rw [List.filter_eq_nil_iff]
            intro a ha
            intro hdec
            have hau : a.url = u := of_decide_eq_true hdec
            apply hany
            rw [List.any_eq_true]
            exact ⟨a, ha, by simp [hau, hx]⟩
          rw [hD]
          simp [hx]
      · have hfx : (List.filter (fun i => decide (i.url = u)) [x]) = [] := by simp [hx]
        rw [hfx, List.append_nil]
        unfold upsertByUrl
        by_cases hany : (dedupeByUrl xs).any (fun p => decide (p.url = x.url)) = true
        · rw [if_pos hany, filter_overwrite_other _ _ _ hx, ih]
        · rw [if_neg hany, List.filter_append, hfx, List.append_nil, ih]

theorem jsSliceBatches_mem_le (l : List α) :
    ∀ b ∈ jsSliceBatches l, b.length ≤ 5 := by
  induction l using jsSliceBatches.induct with
  | case1 => intro b hb; simp [jsSliceBatches] at hb
  | case2 a => intro b hb; simp [jsSliceBatches] at hb; subst hb; simp
  | case3 a c => intro b hb; simp [jsSliceBatches] at hb; subst hb; simp
  | case4 a c d => intro b hb; simp [jsSliceBatches] at hb; subst hb; simp
  | case5 a c d e => intro b hb; simp [jsSliceBatches] at hb; subst hb; simp
  | case6 a c d e f rest ih =>
      intro b hb
      rw [jsSliceBatches] at hb
      rcases List.mem_cons.mp hb with h | h
      · subst h; simp
      · exact ih b h

/-- An extra fixture: a 1001-character text with no whitespace. -/
def aChars1001 : String := String.mk (List.replicate 1001 'a')

/-- An extra fixture: a 10001-character text with no whitespace. -/
def aChars10001 : String := String.mk (List.replicate 10001 'a')

/- ===================================================================
   Claims.
   =================================================================== -/

/-- C2: for every numeric input n of getTime, values above the
946684800000 threshold are returned unchanged (epoch milliseconds) and
positive values at or below it are multiplied by 1000 (epoch seconds). -/
theorem getTime_numeric_threshold (n : Int) (now : ShDateTime) :
    (946684800000 < n → getTime (.num n) now = some n) ∧
    (0 < n → n ≤ 946684800000 → getTime (.num n) now = some (n * 1000)) := by
  constructor
  · intro h
    simp only [getTime, numericResult, msThreshold]
    rw [if_pos h]
  · intro h1 h2
    simp only [getTime, numericResult, msThreshold]
    rw [if_neg (by omega)]

/-- C2 witness: the threshold rule evaluated just above the threshold and at
a small positive second count. -/
theorem getTime_numeric_threshold_witness :
    getTime (.num 946684800001) clockA = some 946684800001 ∧
    getTime (.num 1700000000) clockA = some 1700000000000 :=
  ⟨(getTime_numeric_threshold 946684800001 clockA).1 (by norm_num),
   (getTime_numeric_threshold 1700000000 clockA).2 (by norm_num) (by norm_num)⟩

/-- C10: every string that Number does not send to NaN takes the numeric
path of getTime and yields the same result as the numeric input Number(s)
under the threshold rule. -/
theorem getTime_numeric_string_path (s : String) (now : ShDateTime)
    (h : jsNumberIsNaN s = false) :
    getTime (.str s) now = getTime (.num (jsNumberVal s)) now := by
  simp [getTime, h]

/-- C10 witness: the empty string is numeric (Number("") is 0) and yields
some 0 rather than the undefined sentinel; a plain integer-second string
is scaled to milliseconds. -/
theorem getTime_numeric_string_path_witness :
    jsNumberIsNaN "" = false ∧ jsNumberIsNaN "1700000000" = false ∧
    getTime (.str "") clockA = some 0 ∧
    getTime (.str "1700000000") clockA = some 1700000000000 := by
  refine ⟨by decide, by decide, ?_, ?_⟩
  · rw [getTime_numeric_string_path "" clockA (by decide)]
    decide
  · rw [getTime_numeric_string_path "1700000000" clockA (by decide)]
    decide

/-- C3: for every non-numeric string that none of the ordered recognizers
matches and that the standardized generic parses reject, getTime fails soft
with the zero sentinel instead of throwing. -/
theorem getTime_unmatched_string_returns_zero (s : String) (now : ShDateTime)
    (h1 : jsNumberIsNaN s = true)
    (h2 : matchesAnyRecognizer s = false)
    (h3 : genericParse (standardizedInput s) = none) :
    getTime (.str s) now = some 0 := by
  simp only [matchesAnyRecognizer, Bool.or_eq_false_iff] at h2
  obtain ⟨⟨⟨⟨⟨⟨⟨⟨hA, hB⟩, hC⟩, hD⟩, hE⟩, hF⟩, hG⟩, hH⟩, hI⟩ := h2
  simp [getTime, h1, hA, hB, hC, hD, hE, hF, hG, hH, hI, h3]

/-- C3 witness: the malformed string of four question marks matches no
recognizer and evaluates to the zero sentinel. -/
theorem getTime_unmatched_string_returns_zero_witness :
    jsNumberIsNaN "????" = true ∧ matchesAnyRecognizer "????" = false ∧
    genericParse (standardizedInput "????") = none ∧
    getTime (.str "????") clockA = some 0 :=
  ⟨by decide, by decide, by decide,
   getTime_unmatched_string_returns_zero "????" clockA (by decide) (by decide) (by decide)⟩

/-- C7: for every window token that is neither "today" nor recognized by the
filter's own parseInt as a positive integer day count, the recency filters
resolve the cutoff to the start of the current local day, i.e. the semantics
of "today" — for the switch-style filters (chinanews, eastmoney, and
companions), whose recognizer is the radix-less parseInt with hex autodetect,
and for filterByDays in people-rmb.ts, whose recognizer is
parseInt(days, 10). -/
theorem recencyWindow_unrecognized_falls_back_to_today (days : String) (clock : JsClock)
    (h1 : days ≠ "today") :
    (recognizedDayCount days = false → routeTargetDate days clock = clock.todayStartMs) ∧
    (recognizedDayCount10 days = false → peopleTargetDate days clock = clock.todayStartMs) := by
  constructor
  · intro h2
    unfold routeTargetDate
    rw [if_neg h1]
    by_cases h3 : days = "3"
    · subst h3
      exact absurd h2 (by decide)
    · rw [if_neg h3]
      by_cases h7 : days = "7"
      · subst h7
        exact absurd h2 (by decide)
      · rw [if_neg h7]
        by_cases h30 : days = "30"
        · subst h30
          exact absurd h2 (by decide)
        · rw [if_neg h30]
          unfold recognizedDayCount at h2
          rcases hp : jsParseInt days with _ | n
          · simp [hp]
          · rw [hp] at h2
            simp only [hp]
            have hn : ¬n > 0 := by simpa using h2
            rw [if_neg hn]
  · intro h2
    unfold peopleTargetDate
    rw [if_neg h1]
    by_cases h3 : days = "3"
    · subst h3
      exact absurd h2 (by decide)
    · rw [if_neg h3]
      by_cases h7 : days = "7"
      · subst h7
        exact absurd h2 (by decide)
      · rw [if_neg h7]
        by_cases h30 : days = "30"
        · subst h30
          exact absurd h2 (by decide)
        · rw [if_neg h30]
          unfold recognizedDayCount10 at h2
          rcases hp : jsParseInt10 days with _ | n
          · simp [hp]
          · rw [hp] at h2
            simp only [hp]
            have hn : ¬n > 0 := by simpa using h2
            rw [if_neg hn]

/-- C7 witness: the unrecognized token "abc" resolves to the start of the
current day under both filter families; "0x10", which the radix-less
parseInt of the switch filters recognizes as 16 days, is outside the
theorem's hypothesis there but is unrecognized — and falls back to today —
under the base-10 filterByDays recognizer. -/
theorem recencyWindow_unrecognized_falls_back_to_today_witness :
    ("abc" : String) ≠ "today" ∧
    recognizedDayCount "abc" = false ∧ recognizedDayCount10 "abc" = false ∧
    routeTargetDate "abc" clockJ = clockJ.todayStartMs ∧
    peopleTargetDate "abc" clockJ = clockJ.todayStartMs ∧
    recognizedDayCount "0x10" = true ∧ recognizedDayCount10 "0x10" = false ∧
    routeTargetDate "0x10" clockJ = clockJ.nowMs - 16 * 86400000 ∧
    peopleTargetDate "0x10" clockJ = clockJ.todayStartMs :=
  ⟨by decide, by decide, by decide,
   (recencyWindow_unrecognized_falls_back_to_today "abc" clockJ (by decide)).1 (by decide),
   (recencyWindow_unrecognized_falls_back_to_today "abc" clockJ (by decide)).2 (by decide),
   by decide, by decide, by decide,
   (recencyWindow_unrecognized_falls_back_to_today "0x10" clockJ (by decide)).2 (by decide)⟩

/-- C1 counterexample: in the xinhua route the list fetch is awaited outside
any try block, so a rejected list fetch rejects getList itself instead of
resolving with an empty envelope — the exception passes the pipeline
boundary, falsifying the claim for that route. -/
theorem xinhuaGetList_propagates_fetch_failure :
    xinhuaGetList (Except.error ()) constEnvelopeBody = Except.error () := rfl

/-- C1 amended: for routes whose getList wraps its body in a try/catch
(chinanews, eastmoney, wallstreetcn, 36kr-keji, comnews, unn), a failed list
fetch resolves to the same envelope shape with empty data and fromCache
false; in the xinhua, mfa-wsrc and people-rmb routes the list fetch is
unguarded and its failure propagates to the caller. -/
theorem getList_listFetch_failure_behavior :
    (∀ (β α : Type) (body : FetchOk β → Envelope α) (nowStr : String),
        chinanewsGetList (Except.error ()) body nowStr =
          { updateTime := nowStr, fromCache := false, data := [] }) ∧
    (∀ (β α : Type) (body : FetchOk β → Envelope α) (nowStr : String),
        eastmoneyGetList (Except.error ()) body nowStr =
          { updateTime := nowStr, fromCache := false, data := [] }) ∧
    (∀ (β α : Type) (body : FetchOk β → Envelope α) (nowStr : String),
        unnGetList (Except.error ()) body nowStr =
          { updateTime := nowStr, fromCache := false, data := [] }) ∧
    (∀ (β α : Type) (body : FetchOk β → Envelope α),
        xinhuaGetList (Except.error ()) body = Except.error ()) ∧
    (∀ (β α : Type) (body : FetchOk β → Envelope α),
        mfaGetList (Except.error ()) body = Except.error ()) ∧
    (∀ (β α : Type) (body : FetchOk β → Envelope α),
        peopleGetList (Except.error ()) body = Except.error ()) := by
  refine ⟨?_, ?_, ?_, ?_, ?_, ?_⟩ <;> intros <;> rfl

/-- C4: deduplication keyed by url keeps exactly one item per distinct url —
the last one supplied in input order (filtering the dedupe output by any url
yields exactly the last input item with that url, or nothing) — and the
deduplicated list is then truncated to the per-source candidate ceiling
(slice(0, 50) in xinhua, slice(0, 30) in mfa-wsrc) before enrichment. -/
theorem dedupe_last_write_wins_and_truncation :
    (∀ (items : List ListNewsItem) (u : String),
        (dedupeByUrl items).filter (fun i => decide (i.url = u)) =
          ((items.filter (fun i => decide (i.url = u))).getLast?).toList) ∧
    (∀ items : List ListNewsItem,
        xinhuaUniqueNews items = (dedupeByUrl items).take 50 ∧
        (xinhuaUniqueNews items).length ≤ 50) ∧
    (∀ events : List MfaEvent, (mfaUniqueEvents events).length ≤ 30) := by
  refine ⟨dedupe_filter_getLast, ?_, ?_⟩
  · intro items
    exact ⟨rfl, List.length_take_le 50 (dedupeByUrl items)⟩
  · intro events
    exact List.length_take_le 30 _

/-- C5 counterexample: the xinhua route filters with isToday on the time
string and url, not on the numeric timestamp; an item with no time string
(undefined timestamp) whose url does not contain the compact date of today is
dropped, falsifying "items with no timestamp are never excluded in every
route". -/
theorem xinhua_filter_drops_timeless_item :
    xinhuaIsToday "" (some "https://www.news.cn/world/abc.html")
      (jsTodayStr 2025 0 15) (jsTodayCompact 2025 0 15) = false := by decide

/-- C5 amended: in the routes that filter on the numeric timestamp
(chinanews, eastmoney, wallstreetcn, 36kr-keji, comnews, unn, mfa-wsrc) an
item with an undefined timestamp is always retained; the xinhua route instead
matches the time string and url against today, and retains an item with no
time string exactly when its url contains the compact date of today. -/
theorem timeless_item_retention :
    (∀ (days : String) (clock : JsClock), routeKeepItem none days clock = true) ∧
    (∀ (url todayStr todayCompact : String),
        xinhuaIsToday "" (some url) todayStr todayCompact = jsIncludes url todayCompact) := by
  constructor
  · intro days clock
    rfl
  · intro url ts tc
    cases h : jsIncludes url tc <;> simp [xinhuaIsToday, h]

/-- C6 counterexample: the xinhua route enriches the whole deduplicated
candidate list in one Promise.all, so with six candidates six detail fetches
are in flight at once, falsifying the claim that every route caps concurrent
detail fetches at five. -/
theorem xinhua_enrichment_exceeds_batch_limit :
    peakInFlight (xinhuaEnrichSchedule (xinhuaUniqueNews sixCandidates)) = 6 := by decide

/-- C6 amended: the chinanews, eastmoney, wallstreetcn, 36kr-keji and comnews
routes enrich in strictly sequential slice(i, i+5) batches, so no batch — and
hence no set of concurrently in-flight detail fetches — exceeds five; the
xinhua, mfa-wsrc and people-rmb routes instead run one Promise.all over the
whole candidate list, whose peak concurrency is the full candidate count. -/
theorem enrichment_batch_shapes :
    (∀ (l : List ListNewsItem) (b : List ListNewsItem),
        b ∈ jsSliceBatches l → b.length ≤ 5) ∧
    (∀ l : List ListNewsItem, peakInFlight (xinhuaEnrichSchedule l) = l.length) := by
  constructor
  · intro l
    exact jsSliceBatches_mem_le l
  · intro l
    simp [peakInFlight, xinhuaEnrichSchedule]

/-- C6 amended witness: the batch bound applied to the last batch of six
concrete candidates, and the single-batch peak equals the candidate count. -/
theorem enrichment_batch_shapes_witness :
    [mkListItem "u6"] ∈ jsSliceBatches sixCandidates ∧
    ([mkListItem "u6"] : List ListNewsItem).length ≤ 5 ∧
    peakInFlight (xinhuaEnrichSchedule sixCandidates) = sixCandidates.length :=
  ⟨by decide,
   enrichment_batch_shapes.1 sixCandidates [mkListItem "u6"] (by decide),
   enrichment_batch_shapes.2 sixCandidates⟩

set_option maxRecDepth 20000 in
/-- C8 counterexample: the xinhua excerpt expression truncates a
501-character text to its first 500 characters but appends no ellipsis,
because its ellipsis condition tests the original length against 10000, not
against the 500-character truncation point — falsifying "whenever the text is
truncated to the maximum an ellipsis marker is appended". -/
theorem xinhuaExcerpt_truncates_without_ellipsis :
    aChars501.length = 501 ∧
    xinhuaExcerpt aChars501 = String.mk (List.replicate 500 'a') ∧
    (xinhuaExcerpt aChars501).data.getLast? = some 'a' := by decide

/-- C8 amended: the produced excerpts are length-bounded by the truncation
point plus the three ellipsis characters (1003 for the chinanews clip, 503
for the xinhua excerpt); the chinanews clip appends the ellipsis exactly when
it truncates, while the xinhua excerpt appends it only when the pre-collapse
text exceeds 10000 characters. -/
theorem excerpt_length_and_ellipsis :
    (∀ s : String, (chinanewsClip s).length ≤ 1003 ∧
        (s.length > 1000 → chinanewsClip s = jsSubstring0 s 1000 ++ "...")) ∧
    (∀ t : String, (xinhuaExcerpt t).length ≤ 503 ∧
        (t.length > 10000 → xinhuaExcerpt t = jsSubstring0 (collapseWs t) 500 ++ "...")) := by
  constructor
  · intro s
    constructor
    · unfold chinanewsClip
      by_cases h : s.length > 1000
      · rw [if_pos h, String.length_append, length_jsSubstring0]
        have h3 : ("..." : String).length = 3 := rfl
        have hm := min_le_left 1000 s.length
        omega
      · rw [if_neg h]
        omega
    · intro h
      unfold chinanewsClip
      rw [if_pos h]
  · intro t
    constructor
    · unfold xinhuaExcerpt
      by_cases h : t.length > 10000
      · rw [if_pos h, String.length_append, length_jsSubstring0]
        have h3 : ("..." : String).length = 3 := rfl
        have hm := min_le_left 500 (collapseWs t).length
        omega
      · rw [if_neg h, String.length_append, length_jsSubstring0]
        have h3 : ("" : String).length = 0 := rfl
        have hm := min_le_left 500 (collapseWs t).length
        omega
    · intro h
      unfold xinhuaExcerpt
      rw [if_pos h]

/-- C8 amended witness: the bounds and ellipsis facts evaluated on concrete
texts of 1001 and 10001 characters. -/
theorem excerpt_length_and_ellipsis_witness :
    aChars1001.length > 1000 ∧
    chinanewsClip aChars1001 = jsSubstring0 aChars1001 1000 ++ "..." ∧
    aChars10001.length > 10000 ∧
    xinhuaExcerpt aChars10001 = jsSubstring0 (collapseWs aChars10001) 500 ++ "..." :=
  ⟨by norm_num [aChars1001, length_mk],
   (excerpt_length_and_ellipsis.1 aChars1001).2 (by norm_num [aChars1001, length_mk]),
   by norm_num [aChars10001, length_mk],
   (excerpt_length_and_ellipsis.2 aChars10001).2 (by norm_num [aChars10001, length_mk])⟩

/-- C9 counterexample: on empty markup both extractContent helpers return the
empty string, not the "no content" sentinel — falsifying "never returns an
empty string" for the empty-input case. -/
theorem extractContent_empty_markup_empty_string :
    chinanewsExtractContent "" ["a paragraph that is long enough"] "fallback text" = "" ∧
    eastmoneyExtractContent "" "some text" = "" ∧
    ("" : String) ≠ "暂无内容" := by decide

/-- C9 amended: for non-empty markup the chinanews and eastmoney
extractContent helpers never return the empty string, and when the extraction
yields nothing they return the "no content" sentinel; the empty-markup input
alone short-circuits to the empty string. -/
theorem extractContent_nonempty_sentinel :
    (∀ (html full : String) (paras : List String), html ≠ "" →
        chinanewsExtractContent html paras full ≠ "") ∧
    (∀ (html full : String) (paras : List String), html ≠ "" →
        paras.filter chinanewsGoodPara = [] → jsTrim full = "" →
        chinanewsExtractContent html paras full = "暂无内容") ∧
    (∀ (html text : String), html ≠ "" → eastmoneyExtractContent html text ≠ "") := by
  refine ⟨?_, ?_, ?_⟩
  · intro html full paras h
    unfold chinanewsExtractContent
    rw [if_neg h]
    by_cases hc : chinanewsAssembled paras full = ""
    · rw [if_pos hc]
      decide
    · rw [if_neg hc]
      exact hc
  · intro html full paras h hf hfull
    unfold chinanewsExtractContent
    rw [if_neg h]
    have hass : chinanewsAssembled paras full = "" := by
      unfold chinanewsAssembled
      rw [hf]
      simp [hfull]
      decide
    rw [if_pos hass]
  · intro html text h
    unfold eastmoneyExtractContent
    rw [if_neg h]
    by_cases hc : eastmoneyCleanedText text = ""
    · rw [if_pos hc]
      decide
    · rw [if_neg hc]
      exact hc

/-- C9 amended witness: concrete non-empty markup with empty extraction
yields the sentinel and never the empty string. -/
theorem extractContent_nonempty_sentinel_witness :
    chinanewsExtractContent "<div></div>" [] "" = "暂无内容" ∧
    chinanewsExtractContent "<div></div>" [] "" ≠ "" ∧
    eastmoneyExtractContent "<p>x</p>" "actual text" ≠ "" :=
  ⟨extractContent_nonempty_sentinel.2.1 "<div></div>" "" [] (by decide) (by decide) (by decide),
   extractContent_nonempty_sentinel.1 "<div></div>" "" [] (by decide),
   extractContent_nonempty_sentinel.2.2 "<p>x</p>" "actual text" (by decide)⟩

end DailyHot
